import Mathlib

/-!
Verification of the RBM engine in `CH14/RBM_01.py`.

The Python file implements a Restricted Boltzmann Machine over dense numpy
arrays of floats.  We embed it shallowly: a matrix is a pair of dimensions
together with a total entry function `ℕ → ℕ → ℝ` (entries outside the stated
dimensions are irrelevant to every theorem below), numpy's element-wise
operations become entry-wise definitions, and each call to the pseudo-random
generator (`np.random.rand`) becomes an explicit stream of real draws passed
to the operation.  Points where numpy would raise (`np.dot` on misaligned
shapes, indexing row 0 of an empty array) are modelled as explicit error
results, and each engine method returns its result together with the engine
poststate, so frame properties are statable.
-/

noncomputable section

/-- A dense real matrix: dimensions plus a total entry function, as a shallow
model of a 2-d numpy array. -/
structure Mat where
  rows : ℕ
  cols : ℕ
  entry : ℕ → ℕ → ℝ

/-- Matrix product (`np.dot`): entry `(i,k)` is the dot product of row `i`
of `A` with column `k` of `B`, summing over the `A.cols` inner indices. -/
def matMul (A B : Mat) : Mat :=
  ⟨A.rows, B.cols, fun i k => ∑ j in Finset.range A.cols, A.entry i j * B.entry j k⟩

/-- Matrix transpose (`.T`). -/
def transpose (A : Mat) : Mat :=
  ⟨A.cols, A.rows, fun i j => A.entry j i⟩

/-- Entry-wise map of a real function over a matrix. -/
def matMap (f : ℝ → ℝ) (A : Mat) : Mat :=
  ⟨A.rows, A.cols, fun i j => f (A.entry i j)⟩

/-- Entry-wise sum of two matrices (`+` on same-shape numpy arrays). -/
def matAdd (A B : Mat) : Mat :=
  ⟨A.rows, A.cols, fun i j => A.entry i j + B.entry i j⟩

/-- Entry-wise difference of two matrices. -/
def matSub (A B : Mat) : Mat :=
  ⟨A.rows, A.cols, fun i j => A.entry i j - B.entry i j⟩

/-- Scalar multiple of a matrix. -/
def matSMul (c : ℝ) (A : Mat) : Mat :=
  ⟨A.rows, A.cols, fun i j => c * A.entry i j⟩

/-- Embeds `np.insert(data, 0, 1, axis = 1)`: a new constant-1 column at index 0,
shifting the old columns right. -/
def insertBiasCol (A : Mat) : Mat :=
  ⟨A.rows, A.cols + 1, fun i j => if j = 0 then 1 else A.entry i (j - 1)⟩

/-- Embeds `np.insert(w, 0, 0, axis = 0)`: a new zero row at index 0. -/
def insertZeroRow (A : Mat) : Mat :=
  ⟨A.rows + 1, A.cols, fun i j => if i = 0 then 0 else A.entry (i - 1) j⟩

/-- Embeds `np.insert(w, 0, 0, axis = 1)`: a new zero column at index 0. -/
def insertZeroCol (A : Mat) : Mat :=
  ⟨A.rows, A.cols + 1, fun i j => if j = 0 then 0 else A.entry i (j - 1)⟩

/-- Embeds `m[:,1:]`: drop column 0. -/
def stripCol0 (A : Mat) : Mat :=
  ⟨A.rows, A.cols - 1, fun i j => A.entry i (j + 1)⟩

/-- Embeds `m[:,0] = 1`: pin column 0 of a matrix to 1. -/
def setCol0 (A : Mat) : Mat :=
  ⟨A.rows, A.cols, fun i j => if j = 0 then 1 else A.entry i j⟩

/-- Embeds `probs > np.random.rand(...)` cast to floats: entry `(i,j)` is 1 when the
probability strictly exceeds the uniform draw `u i j`, else 0. -/
def binarize (A : Mat) (u : ℕ → ℕ → ℝ) : Mat :=
  ⟨A.rows, A.cols, fun i j => if u i j < A.entry i j then 1 else 0⟩

/-- Embeds `RBM._logistic`: `1.0 / (1 + np.exp(-x))`. -/
def logistic (x : ℝ) : ℝ := 1 / (1 + Real.exp (-x))

/-- The errors Python surfaces in this program: a shape-misaligned `np.dot`
(`ValueError: shapes not aligned`), an out-of-range index (`IndexError`),
and the `ZeroDivisionError` of `6. / (num_hidden + num_visible)` when both
dimensions are zero.  The source performs no validation of its own. -/
inductive RBMError where
  | shapeMismatch : RBMError
  | indexError : RBMError
  | zeroDivision : RBMError

/-- Modelled from the spec: the numpy library pseudo-random generator
`np.random.RandomState(seed)` whose `uniform` method drives weight
initialization.  The generator itself (MT19937) is library code outside this
repository; what the spec requires of it is that it is a deterministic
function of the seed producing draws in `[0,1)`, which this concrete
hash-style stream provides. -/
def seededU (seed i j : ℕ) : ℝ :=
  (((seed + 2654435761 * i + 40503 * j) % 1000000 : ℕ) : ℝ) / 1000000

/-- The engine state: `num_visible`, `num_hidden` and the owned weight
matrix, exactly the attributes `RBM.__init__` stores on `self`. -/
structure RBM where
  num_visible : ℕ
  num_hidden : ℕ
  weights : Mat

/-- Embeds `RBM.__init__`: draw a `(num_visible × num_hidden)` matrix uniformly in
`[-0.1·√(6/(num_hidden+num_visible)), +0.1·√(6/(num_hidden+num_visible)))`
from the locally created `RandomState(1234)` (numpy's `uniform low high`
returns `low + (high-low)·u` for a raw draw `u ∈ [0,1)`), then insert a zero
bias row and a zero bias column at index 0.  The `ambient` argument models
the process-global random state (`np.random`): the constructor could read it
but does not — it creates its own seeded generator — which is what makes
construction reproducible.  This definition is the non-raising branch of
`__init__`: when `num_hidden + num_visible = 0` the source raises a
`ZeroDivisionError` at the `6. / (num_hidden + num_visible)` expression
instead of building any matrix; `rbmInitChecked` below embeds `__init__`
together with that raise point. -/
def rbmInit (num_visible num_hidden : ℕ) (ambient : ℕ → ℕ → ℝ) : RBM :=
  let low : ℝ := -(0.1 * Real.sqrt (6 / ((num_hidden : ℝ) + (num_visible : ℝ))))
  let high : ℝ := 0.1 * Real.sqrt (6 / ((num_hidden : ℝ) + (num_visible : ℝ)))
  let w0 : Mat := ⟨num_visible, num_hidden, fun i j => low + (high - low) * seededU 1234 i j⟩
  { num_visible := num_visible
    num_hidden := num_hidden
    weights := insertZeroCol (insertZeroRow w0) }

/-- Embeds `RBM.__init__` with its raise point: `6. / (num_hidden + num_visible)`
is Python integer-over-integer division, which raises `ZeroDivisionError`
when both dimensions are zero (before any matrix is built or any `self`
attribute beyond the dimensions is written); for every other dimension pair
construction proceeds as `rbmInit`. -/
def rbmInitChecked (num_visible num_hidden : ℕ) (ambient : ℕ → ℕ → ℝ) :
    Except RBMError RBM :=
  if num_hidden + num_visible = 0 then Except.error RBMError.zeroDivision
  else Except.ok (rbmInit num_visible num_hidden ambient)

/-- Training, positive phase: `pos_hidden_probs` is the logistic of
`data · W` with column 0 then pinned to 1 (`pos_hidden_probs[:,0] = 1`).
Here `data` is already bias-augmented, as in the body of `RBM.train`. -/
def posHiddenProbs (W data : Mat) : Mat :=
  setCol0 (matMap logistic (matMul data W))

/-- Training, positive phase: `pos_hidden_states`, the stochastic
binarization of `pos_hidden_probs` against one fresh uniform matrix `u`
(`np.random.rand(num_examples, num_hidden + 1)`). -/
def posHiddenStates (W data : Mat) (u : ℕ → ℕ → ℝ) : Mat :=
  binarize (posHiddenProbs W data) u

/-- Training, negative phase: `neg_visible_probs`, the logistic of
`pos_hidden_states · Wᵗ` with column 0 then pinned to 1. -/
def negVisibleProbs (W data : Mat) (u : ℕ → ℕ → ℝ) : Mat :=
  setCol0 (matMap logistic (matMul (posHiddenStates W data u) (transpose W)))

/-- Training, negative phase: `neg_hidden_probs = logistic(neg_visible_probs · W)`
(no pinning on this one). -/
def negHiddenProbs (W data : Mat) (u : ℕ → ℕ → ℝ) : Mat :=
  matMap logistic (matMul (negVisibleProbs W data u) W)

/-- One epoch body of `RBM.train`:
`w += learning_rate * ((pos_associations - neg_associations) / num_examples)`
with `pos_associations = dataᵗ · pos_hidden_probs` and
`neg_associations = neg_visible_probsᵗ · neg_hidden_probs`. -/
def trainStep (W data : Mat) (lr : ℝ) (n : ℕ) (u : ℕ → ℕ → ℝ) : Mat :=
  matAdd W (matSMul lr (matSMul ((n : ℝ))⁻¹
    (matSub (matMul (transpose data) (posHiddenProbs W data))
            (matMul (transpose (negVisibleProbs W data u)) (negHiddenProbs W data u)))))

/-- The `for epoch in range(max_epochs)` loop of `RBM.train`, with the weight
matrix threaded through.  The guard `data.cols = W.rows` is numpy's shape
check on the first `np.dot(data, self.weights)` of the epoch: when it fails
the exception propagates and the weights kept so far are left as they are.
`u` supplies the per-epoch uniform matrix for `pos_hidden_states`. -/
def trainLoop (data : Mat) (lr : ℝ) (u : ℕ → ℕ → ℕ → ℝ) (n : ℕ) :
    Mat → ℕ → Mat × Option RBMError
  | W, 0 => (W, none)
  | W, k + 1 =>
    if data.cols = W.rows then
      trainLoop data lr u n (trainStep W data lr n (u k)) k
    else (W, some RBMError.shapeMismatch)

/-- Embeds `RBM.train`: bias-augment the data, then run the epoch loop
(`range` of a non-positive `max_epochs` is empty, hence `Int.toNat`).
Returns the engine poststate together with the error, if any, that numpy
raised; on an error `self.weights` holds whatever had been written so far. -/
def train (r : RBM) (data : Mat) (max_epochs : ℤ) (lr : ℝ) (u : ℕ → ℕ → ℕ → ℝ) :
    RBM × Option RBMError :=
  let p := trainLoop (insertBiasCol data) lr u data.rows r.weights max_epochs.toNat
  ({ r with weights := p.1 }, p.2)

/-- Embeds `RBM.run_visible`: bias-augment the input, take the logistic of
`data · W`, binarize every entry (bias column included — the commented-out
`hidden_states[:,0] = 1` of the source is not executed) against fresh
uniform draws, and drop column 0.  The `(num_examples, num_hidden+1)` ones
matrix the source allocates is fully overwritten by `hidden_states[:,:] = …`
and therefore does not appear.  The engine is returned unchanged: the method
never assigns `self.weights`. -/
def run_visible (r : RBM) (data : Mat) (u : ℕ → ℕ → ℝ) : Except RBMError Mat × RBM :=
  let aug := insertBiasCol data
  if aug.cols = r.weights.rows then
    (Except.ok (stripCol0 (binarize (matMap logistic (matMul aug r.weights)) u)), r)
  else (Except.error RBMError.shapeMismatch, r)

/-- Embeds `RBM.run_hidden`: symmetric to `run_visible` with `self.weights.T`. -/
def run_hidden (r : RBM) (data : Mat) (u : ℕ → ℕ → ℝ) : Except RBMError Mat × RBM :=
  let aug := insertBiasCol data
  if aug.cols = (transpose r.weights).rows then
    (Except.ok (stripCol0 (binarize (matMap logistic (matMul aug (transpose r.weights))) u)), r)
  else (Except.error RBMError.shapeMismatch, r)

/-- Embeds `np.dot(vector, matrix)`: the row vector times matrix product used in
`RBM.daydream`. -/
def vecDotMat (v : ℕ → ℝ) (A : Mat) : ℕ → ℝ :=
  fun j => ∑ m in Finset.range A.rows, v m * A.entry m j

/-- One hidden-state draw inside `RBM.daydream`'s Gibbs loop:
`hidden_states = hidden_probs > np.random.rand(num_hidden + 1)` followed by
`hidden_states[0] = 1` (the bias unit is forced). -/
def daydreamHidden (W : Mat) (visible : ℕ → ℝ) (uh : ℕ → ℝ) : ℕ → ℝ :=
  let hidden_probs := fun j => logistic (vecDotMat visible W j)
  let hidden_states := fun j => if uh j < hidden_probs j then (1 : ℝ) else 0
  fun j => if j = 0 then 1 else hidden_states j

/-- One visible-state draw inside `RBM.daydream`'s Gibbs loop:
`visible_states = visible_probs > np.random.rand(num_visible + 1)`.
Note: no index of `visible_states` is forced — position 0 (bias) is
binarized like any other. -/
def daydreamVisible (W : Mat) (hidden : ℕ → ℝ) (uv : ℕ → ℝ) : ℕ → ℝ :=
  let visible_probs := fun j => logistic (vecDotMat hidden (transpose W) j)
  fun j => if uv j < visible_probs j then (1 : ℝ) else 0

/-- Row `i` of the internal `samples` array of `RBM.daydream`.  Row 0 is the
ones row with `samples[0,1:] = np.random.rand(num_visible)` written over
positions 1 onward; row `i+1` is the visible draw produced from the hidden
draw of row `i` (`u0`, `uh i`, `uv i` are the successive uniform draws). -/
def daydreamRow (W : Mat) (u0 : ℕ → ℝ) (uh uv : ℕ → ℕ → ℝ) : ℕ → ℕ → ℝ
  | 0 => fun j => if j = 0 then 1 else u0 (j - 1)
  | i + 1 =>
    daydreamVisible W (daydreamHidden W (daydreamRow W u0 uh uv i) (uh (i + 1))) (uv (i + 1))

/-- Embeds `RBM.daydream`: build the `num_samples × (num_visible+1)` samples array
and return it with column 0 dropped (`samples[:,1:]`).  With
`num_samples = 0` the assignment `samples[0,1:] = …` indexes row 0 of an
empty array, so numpy raises an `IndexError`.  The engine is returned
unchanged: the method never assigns `self.weights`. -/
def daydream (r : RBM) (num_samples : ℕ) (u0 : ℕ → ℝ) (uh uv : ℕ → ℕ → ℝ) :
    Except RBMError Mat × RBM :=
  if num_samples = 0 then (Except.error RBMError.indexError, r)
  else
    (Except.ok ⟨num_samples, r.num_visible, fun i j => daydreamRow r.weights u0 uh uv i (j + 1)⟩, r)

/-- Dimensions of a successful matrix result, `none` on an error. -/
def exceptDims : Except RBMError Mat → Option (ℕ × ℕ)
  | Except.ok M => some (M.rows, M.cols)
  | Except.error _ => none

theorem seededU_nonneg (s i j : ℕ) : 0 ≤ seededU s i j := by
  unfold seededU
  positivity

theorem seededU_lt_one (s i j : ℕ) : seededU s i j < 1 := by
  unfold seededU
  rw [div_lt_one (by norm_num)]
  exact_mod_cast Nat.mod_lt _ (by norm_num)

/-- Shared concrete ambient stream for witnesses. -/
def ambZero : ℕ → ℕ → ℝ := fun _ _ => 0

/-- Shared concrete per-epoch uniform stream for witnesses. -/
def uEpochHalf : ℕ → ℕ → ℕ → ℝ := fun _ _ _ => 1 / 2

/-- Shared concrete uniform matrix stream for witnesses. -/
def uHalf : ℕ → ℕ → ℝ := fun _ _ => 1 / 2

/-- Claim C4: for positive `numVisible` and `numHidden`, construction yields
a `(numVisible+1) × (numHidden+1)` weight matrix whose row 0 and column 0
are zero and whose every interior entry lies within
`[-0.1·√(6/(numHidden+numVisible)), +0.1·√(6/(numHidden+numVisible))]`. -/
theorem rbmInit_shape_and_bounds (v h : ℕ) (amb : ℕ → ℕ → ℝ) (hv : 0 < v) (hh : 0 < h) :
    (rbmInit v h amb).weights.rows = v + 1 ∧
    (rbmInit v h amb).weights.cols = h + 1 ∧
    (∀ j, (rbmInit v h amb).weights.entry 0 j = 0) ∧
    (∀ i, (rbmInit v h amb).weights.entry i 0 = 0) ∧
    (∀ i j, 1 ≤ i → 1 ≤ j →
      -(0.1 * Real.sqrt (6 / ((h : ℝ) + (v : ℝ)))) ≤ (rbmInit v h amb).weights.entry i j ∧
      (rbmInit v h amb).weights.entry i j ≤ 0.1 * Real.sqrt (6 / ((h : ℝ) + (v : ℝ)))) := by
  refine ⟨rfl, rfl, ?_, ?_, ?_⟩
  · intro j
    by_cases hj : j = 0 <;> simp [rbmInit, insertZeroCol, insertZeroRow, hj]
  · intro i
    simp [rbmInit, insertZeroCol, insertZeroRow]
  · intro i j hi hj
    have hi0 : ¬ i = 0 := by omega
    have hj0 : ¬ j = 0 := by omega
    have hbnn : 0 ≤ 0.1 * Real.sqrt (6 / ((h : ℝ) + (v : ℝ))) := by positivity
    have hu0 := seededU_nonneg 1234 (i - 1) (j - 1)
    have hu1 := seededU_lt_one 1234 (i - 1) (j - 1)
    simp only [rbmInit, insertZeroCol, insertZeroRow, if_neg hi0, if_neg hj0]
    constructor <;> nlinarith [hu0, hu1, hbnn]

/-- Witness for C4 at `numVisible = 6`, `numHidden = 2` (the demo driver's
dimensions), checking the interior entry `(1,1)`. -/
theorem rbmInit_shape_and_bounds_witness :
    0 < 6 ∧ 0 < 2 ∧
    ((rbmInit 6 2 ambZero).weights.rows = 6 + 1 ∧
     (rbmInit 6 2 ambZero).weights.cols = 2 + 1 ∧
     (∀ j, (rbmInit 6 2 ambZero).weights.entry 0 j = 0) ∧
     (∀ i, (rbmInit 6 2 ambZero).weights.entry i 0 = 0) ∧
     (∀ i j, 1 ≤ i → 1 ≤ j →
       -(0.1 * Real.sqrt (6 / ((2 : ℝ) + (6 : ℝ)))) ≤ (rbmInit 6 2 ambZero).weights.entry i j ∧
       (rbmInit 6 2 ambZero).weights.entry i j ≤ 0.1 * Real.sqrt (6 / ((2 : ℝ) + (6 : ℝ))))) :=
  ⟨by decide, by decide, rbmInit_shape_and_bounds 6 2 ambZero (by decide) (by decide)⟩

/-- Claim C8: for a fixed `(numVisible, numHidden)` pair, two separate
constructions — whatever the state of the process-global random source at
each — produce identical initial weight matrices, because the constructor
reads only its own `RandomState(1234)`. -/
theorem rbmInit_deterministic (v h : ℕ) (a1 a2 : ℕ → ℕ → ℝ) :
    (rbmInit v h a1).weights = (rbmInit v h a2).weights := rfl

/-- Claim C10: training with non-positive `max_epochs` executes the epoch
loop zero times, returns without error, and leaves the engine (its weight
matrix in particular) exactly unchanged. -/
theorem train_zero_epochs_noop (r : RBM) (data : Mat) (e : ℤ) (lr : ℝ)
    (u : ℕ → ℕ → ℕ → ℝ) (hc : data.cols = r.num_visible) (he : e ≤ 0) :
    train r data e lr u = (r, none) := by
  unfold train
  rw [Int.toNat_of_nonpos he]
  rfl

/-- Witness for C10: one row of conforming data, `max_epochs = 0`. -/
theorem train_zero_epochs_noop_witness :
    ((⟨1, 2, fun _ _ => 1⟩ : Mat).cols = (rbmInit 2 2 ambZero).num_visible) ∧
    ((0 : ℤ) ≤ 0) ∧
    train (rbmInit 2 2 ambZero) ⟨1, 2, fun _ _ => 1⟩ 0 (1 / 10) uEpochHalf =
      (rbmInit 2 2 ambZero, none) :=
  ⟨rfl, by decide,
   train_zero_epochs_noop (rbmInit 2 2 ambZero) ⟨1, 2, fun _ _ => 1⟩ 0 (1 / 10) uEpochHalf
     rfl (by decide)⟩

/-- The epoch update exactly as the SPEC words it (claim C1): positive phase
`posHiddenProb = logistic(augmentedData · W)` with column 0 forced to 1,
negative phase `negVisibleProb = logistic(posHiddenState · Wᵗ)` with column 0
forced to 1 and `negHiddenProb = logistic(negVisibleProb · W)`, then
`W += learningRate · (dataᵗ·posHiddenProb − negVisibleProbᵗ·negHiddenProb) / N`. -/
def specEpochUpdate (W augData : Mat) (lr : ℝ) (N : ℕ) (u : ℕ → ℕ → ℝ) : Mat :=
  let posHiddenProb := setCol0 (matMap logistic (matMul augData W))
  let posHiddenState := binarize posHiddenProb u
  let negVisibleProb := setCol0 (matMap logistic (matMul posHiddenState (transpose W)))
  let negHiddenProb := matMap logistic (matMul negVisibleProb W)
  matAdd W (matSMul lr (matSMul ((N : ℝ))⁻¹
    (matSub (matMul (transpose augData) posHiddenProb)
            (matMul (transpose negVisibleProb) negHiddenProb))))

/-- Claim C1: on data with `numVisible` columns, every remaining training
epoch performs exactly the spec's update — the loop at `e + 1` epochs to go
continues at `e` epochs with the weight matrix replaced by
`specEpochUpdate` applied to it (with that epoch's uniform draw `u e`). -/
theorem train_epoch_is_spec_update (r : RBM) (data : Mat) (lr : ℝ)
    (u : ℕ → ℕ → ℕ → ℝ) (e : ℕ)
    (hc : data.cols = r.num_visible) (hw : r.weights.rows = r.num_visible + 1) :
    trainLoop (insertBiasCol data) lr u data.rows r.weights (e + 1) =
    trainLoop (insertBiasCol data) lr u data.rows
      (specEpochUpdate r.weights (insertBiasCol data) lr data.rows (u e)) e := by
  have hcols : (insertBiasCol data).cols = r.weights.rows := by
    simp [insertBiasCol, hc, hw]
  rw [trainLoop, if_pos hcols]
  rfl

/-- Witness for C1: a fresh 2-visible, 2-hidden engine, one data row, one
epoch to go. -/
theorem train_epoch_is_spec_update_witness :
    ((⟨1, 2, fun _ _ => 1⟩ : Mat).cols = (rbmInit 2 2 ambZero).num_visible) ∧
    ((rbmInit 2 2 ambZero).weights.rows = (rbmInit 2 2 ambZero).num_visible + 1) ∧
    trainLoop (insertBiasCol ⟨1, 2, fun _ _ => 1⟩) (1 / 10) uEpochHalf 1
        (rbmInit 2 2 ambZero).weights (0 + 1) =
      trainLoop (insertBiasCol ⟨1, 2, fun _ _ => 1⟩) (1 / 10) uEpochHalf 1
        (specEpochUpdate (rbmInit 2 2 ambZero).weights (insertBiasCol ⟨1, 2, fun _ _ => 1⟩)
          (1 / 10) 1 (uEpochHalf 0)) 0 :=
  ⟨rfl, rfl,
   train_epoch_is_spec_update (rbmInit 2 2 ambZero) ⟨1, 2, fun _ _ => 1⟩ (1 / 10)
     uEpochHalf 0 rfl rfl⟩

/-- Claim C3: calling `train` with a data matrix whose column count differs
from `numVisible` surfaces a shape-mismatch error — numpy's shape check on
the very first product `data · W` fires before any matrix arithmetic is
performed — and the engine, its weight matrix in particular, is returned
unchanged. -/
theorem train_shape_mismatch_fails (r : RBM) (data : Mat) (e : ℤ) (lr : ℝ)
    (u : ℕ → ℕ → ℕ → ℝ) (hw : r.weights.rows = r.num_visible + 1)
    (hc : data.cols ≠ r.num_visible) (he : 0 < e) :
    train r data e lr u = (r, some RBMError.shapeMismatch) := by
  obtain ⟨k, hk⟩ : ∃ k, e.toNat = k + 1 := ⟨e.toNat - 1, by omega⟩
  have hcols : ¬ (insertBiasCol data).cols = r.weights.rows := by
    simp only [insertBiasCol, hw]
    omega
  unfold train
  rw [hk, trainLoop, if_neg hcols]

/-- Witness for C3: a 3-column data matrix against a 2-visible engine,
default-positive epochs. -/
theorem train_shape_mismatch_fails_witness :
    ((rbmInit 2 2 ambZero).weights.rows = (rbmInit 2 2 ambZero).num_visible + 1) ∧
    ((⟨1, 3, fun _ _ => 1⟩ : Mat).cols ≠ (rbmInit 2 2 ambZero).num_visible) ∧
    ((0 : ℤ) < 1000) ∧
    train (rbmInit 2 2 ambZero) ⟨1, 3, fun _ _ => 1⟩ 1000 (1 / 10) uEpochHalf =
      (rbmInit 2 2 ambZero, some RBMError.shapeMismatch) :=
  ⟨rfl, by decide, by decide,
   train_shape_mismatch_fails (rbmInit 2 2 ambZero) ⟨1, 3, fun _ _ => 1⟩ 1000 (1 / 10)
     uEpochHalf rfl (by decide) (by decide)⟩

/-- Claim C5: the shape contracts of the three query operations on a
well-shaped engine: `run_visible` maps `(N, numVisible)` data to an
`(N, numHidden)` result, `run_hidden` maps `(N, numHidden)` data to an
`(N, numVisible)` result, and `daydream k` (for `k ≥ 1`) returns a
`(k, numVisible)` matrix — the bias column stripped in all three. -/
theorem shape_contracts (r : RBM) (dataV dataH : Mat) (u1 u2 : ℕ → ℕ → ℝ)
    (k : ℕ) (u0 : ℕ → ℝ) (uh uv : ℕ → ℕ → ℝ)
    (hwr : r.weights.rows = r.num_visible + 1) (hwc : r.weights.cols = r.num_hidden + 1)
    (hNv : 1 ≤ dataV.rows) (hNh : 1 ≤ dataH.rows)
    (hv : dataV.cols = r.num_visible) (hh : dataH.cols = r.num_hidden) (hk : 1 ≤ k) :
    exceptDims (run_visible r dataV u1).1 = some (dataV.rows, r.num_hidden) ∧
    exceptDims (run_hidden r dataH u2).1 = some (dataH.rows, r.num_visible) ∧
    exceptDims (daydream r k u0 uh uv).1 = some (k, r.num_visible) := by
  refine ⟨?_, ?_, ?_⟩
  · simp [run_visible, exceptDims, stripCol0, binarize, matMap, matMul,
      insertBiasCol, hv, hwr, hwc]
  · simp [run_hidden, exceptDims, stripCol0, binarize, matMap, matMul,
      insertBiasCol, transpose, hh, hwc, hwr]
  · have hk0 : ¬ k = 0 := by omega
    simp [daydream, hk0, exceptDims]

/-- Witness for C5: the demo engine shape `numVisible = 6`, `numHidden = 2`,
with one-row inputs and `daydream 5`. -/
theorem shape_contracts_witness :
    ((rbmInit 6 2 ambZero).weights.rows = (rbmInit 6 2 ambZero).num_visible + 1) ∧
    ((rbmInit 6 2 ambZero).weights.cols = (rbmInit 6 2 ambZero).num_hidden + 1) ∧
    (1 ≤ (⟨1, 6, fun _ _ => 1⟩ : Mat).rows) ∧
    (1 ≤ (⟨1, 2, fun _ _ => 1⟩ : Mat).rows) ∧
    ((⟨1, 6, fun _ _ => 1⟩ : Mat).cols = (rbmInit 6 2 ambZero).num_visible) ∧
    ((⟨1, 2, fun _ _ => 1⟩ : Mat).cols = (rbmInit 6 2 ambZero).num_hidden) ∧
    (1 ≤ 5) ∧
    (exceptDims (run_visible (rbmInit 6 2 ambZero) ⟨1, 6, fun _ _ => 1⟩ uHalf).1 =
      some (1, (rbmInit 6 2 ambZero).num_hidden) ∧
     exceptDims (run_hidden (rbmInit 6 2 ambZero) ⟨1, 2, fun _ _ => 1⟩ uHalf).1 =
      some (1, (rbmInit 6 2 ambZero).num_visible) ∧
     exceptDims (daydream (rbmInit 6 2 ambZero) 5 (fun _ => 1 / 2) uHalf uHalf).1 =
      some (5, (rbmInit 6 2 ambZero).num_visible)) :=
  ⟨rfl, rfl, by decide, by decide, rfl, rfl, by decide,
   shape_contracts (rbmInit 6 2 ambZero) ⟨1, 6, fun _ _ => 1⟩ ⟨1, 2, fun _ _ => 1⟩
     uHalf uHalf 5 (fun _ => 1 / 2) uHalf uHalf rfl rfl (by decide) (by decide)
     rfl rfl (by decide)⟩

/-- Claim C6: for `numSamples ≥ 2`, the matrix `daydream` returns has row 0
equal to the raw uniform draws (`samples[0,1:] = np.random.rand(num_visible)`
is stored unbinarized) while every entry of every later row is exactly 0 or
1 (each is a stochastic binarization result). -/
theorem daydream_rows_binary_after_first (r : RBM) (k : ℕ) (u0 : ℕ → ℝ)
    (uh uv : ℕ → ℕ → ℝ) (M : Mat) (hk : 2 ≤ k)
    (hM : (daydream r k u0 uh uv).1 = Except.ok M) :
    (∀ j, M.entry 0 j = u0 j) ∧
    (∀ i j, 1 ≤ i → M.entry i j = 0 ∨ M.entry i j = 1) := by
  have hk0 : ¬ k = 0 := by omega
  rw [daydream, if_neg hk0] at hM
  have hM2 : M = ⟨k, r.num_visible, fun i j => daydreamRow r.weights u0 uh uv i (j + 1)⟩ :=
    (Except.ok.inj hM).symm
  subst hM2
  constructor
  · intro j
    simp [daydreamRow]
  · intro i j hi
    obtain ⟨m, rfl⟩ : ∃ m, i = m + 1 := ⟨i - 1, by omega⟩
    show daydreamVisible _ _ _ (j + 1) = 0 ∨ daydreamVisible _ _ _ (j + 1) = 1
    unfold daydreamVisible
    by_cases hlt :
        uv (m + 1) (j + 1) <
          logistic (vecDotMat
            (daydreamHidden r.weights (daydreamRow r.weights u0 uh uv m) (uh (m + 1)))
            (transpose r.weights) (j + 1)) <;>
      simp [hlt]

/-- Witness for C6: `daydream 2` on the fresh 2-visible engine. -/
theorem daydream_rows_binary_after_first_witness :
    (2 ≤ 2) ∧
    ((daydream (rbmInit 2 2 ambZero) 2 (fun _ => 1 / 2) uHalf uHalf).1 =
      Except.ok ⟨2, (rbmInit 2 2 ambZero).num_visible,
        fun i j => daydreamRow (rbmInit 2 2 ambZero).weights (fun _ => 1 / 2) uHalf uHalf
          i (j + 1)⟩) ∧
    ((∀ j, (⟨2, (rbmInit 2 2 ambZero).num_visible,
        fun i j => daydreamRow (rbmInit 2 2 ambZero).weights (fun _ => 1 / 2) uHalf uHalf
          i (j + 1)⟩ : Mat).entry 0 j = (fun _ => (1 : ℝ) / 2) j) ∧
     (∀ i j, 1 ≤ i →
       (⟨2, (rbmInit 2 2 ambZero).num_visible,
         fun i j => daydreamRow (rbmInit 2 2 ambZero).weights (fun _ => 1 / 2) uHalf uHalf
           i (j + 1)⟩ : Mat).entry i j = 0 ∨
       (⟨2, (rbmInit 2 2 ambZero).num_visible,
         fun i j => daydreamRow (rbmInit 2 2 ambZero).weights (fun _ => 1 / 2) uHalf uHalf
           i (j + 1)⟩ : Mat).entry i j = 1)) :=
  ⟨by decide, rfl,
   daydream_rows_binary_after_first (rbmInit 2 2 ambZero) 2 (fun _ => 1 / 2) uHalf uHalf
     ⟨2, (rbmInit 2 2 ambZero).num_visible,
       fun i j => daydreamRow (rbmInit 2 2 ambZero).weights (fun _ => 1 / 2) uHalf uHalf
         i (j + 1)⟩ (by decide) rfl⟩

/-- Claim C9: `run_visible`, `run_hidden` and `daydream` never modify the
engine: the poststate they return is the engine they were given (weights and
dimensions included); only `train` produces a changed engine. -/
theorem inference_preserves_state (r : RBM) (data1 data2 : Mat) (u1 u2 : ℕ → ℕ → ℝ)
    (k : ℕ) (u0 : ℕ → ℝ) (uh uv : ℕ → ℕ → ℝ) :
    (run_visible r data1 u1).2 = r ∧ (run_hidden r data2 u2).2 = r ∧
    (daydream r k u0 uh uv).2 = r := by
  refine ⟨?_, ?_, ?_⟩
  · by_cases hcond : (insertBiasCol data1).cols = r.weights.rows <;>
      simp [run_visible, hcond]
  · by_cases hcond : (insertBiasCol data2).cols = (transpose r.weights).rows <;>
      simp [run_hidden, hcond]
  · unfold daydream
    split <;> rfl

theorem logistic_zero : logistic 0 = 1 / 2 := by
  unfold logistic
  rw [neg_zero, Real.exp_zero]
  norm_num

/-- If row 0 of the weight matrix is zero (as it is at construction), the
visible-state draw of `daydream` puts at position 0 (the bias) whatever the
random comparison against `logistic 0 = 1/2` yields — here a draw that makes
it 0. -/
theorem daydreamVisible_bias_zero (W : Mat) (hidden : ℕ → ℝ) (uv : ℕ → ℝ)
    (hW : ∀ m, W.entry 0 m = 0) (huv : ¬ uv 0 < 1 / 2) :
    daydreamVisible W hidden uv 0 = 0 := by
  have hdot : vecDotMat hidden (transpose W) 0 = 0 := by
    unfold vecDotMat
    simp [transpose, hW]
  unfold daydreamVisible
  simp only [hdot, logistic_zero, if_neg huv]

/-- Counterexample to claim C2: on the freshly constructed 1-visible,
1-hidden engine, with uniform draws 9/10, the second row of `daydream`'s
internal sample matrix has bias entry 0, not 1 — the visible resampling
binarizes position 0 like any other and here zeroes it, so the previous row
used as the current visible vector at the next Gibbs step does not have
bias 1. -/
theorem daydream_bias_randomly_zeroed :
    daydreamRow (rbmInit 1 1 ambZero).weights (fun _ => 1 / 2) (fun _ _ => 9 / 10)
      (fun _ _ => 9 / 10) 1 0 = 0 := by
  have h1 : daydreamRow (rbmInit 1 1 ambZero).weights (fun _ => 1 / 2) (fun _ _ => 9 / 10)
      (fun _ _ => 9 / 10) 1 =
      daydreamVisible (rbmInit 1 1 ambZero).weights
        (daydreamHidden (rbmInit 1 1 ambZero).weights
          (daydreamRow (rbmInit 1 1 ambZero).weights (fun _ => 1 / 2) (fun _ _ => 9 / 10)
            (fun _ _ => 9 / 10) 0)
          ((fun _ _ => (9 : ℝ) / 10) 1))
        ((fun _ _ => (9 : ℝ) / 10) 1) := rfl
  rw [h1]
  apply daydreamVisible_bias_zero
  · intro m
    by_cases hm : m = 0 <;> simp [rbmInit, insertZeroCol, insertZeroRow, hm]
  · norm_num

/-- Claim C2 as amended: the bias is pinned exactly where the code pins it —
column 0 of the training probability matrices `pos_hidden_probs` and
`neg_visible_probs`, the hidden-state vector of each `daydream` Gibbs step,
and position 0 of `daydream`'s initial row; the visible-state resampling of
`daydream` (and of `run_visible`/`run_hidden`) leaves the bias position
unconstrained. -/
theorem bias_pinned_where_code_pins (W data : Mat) (u : ℕ → ℕ → ℝ) (i : ℕ)
    (vis uh0 : ℕ → ℝ) (u0 : ℕ → ℝ) (uh uv : ℕ → ℕ → ℝ) :
    (posHiddenProbs W data).entry i 0 = 1 ∧
    (negVisibleProbs W data u).entry i 0 = 1 ∧
    daydreamHidden W vis uh0 0 = 1 ∧
    daydreamRow W u0 uh uv 0 0 = 1 := by
  refine ⟨?_, ?_, ?_, ?_⟩
  · simp [posHiddenProbs, setCol0]
  · simp [negVisibleProbs, setCol0]
  · simp [daydreamHidden]
  · simp [daydreamRow]

/-- Counterexample to claim C7: `train` with `max_epochs = 0` (non-positive)
on a fresh engine returns without raising anything at all — it performs zero
epochs and leaves the engine unchanged — rather than failing with an
`InvalidDimension` error at call time. -/
theorem train_nonpositive_epochs_no_error :
    train (rbmInit 2 2 ambZero) ⟨1, 2, fun _ _ => 1⟩ 0 (1 / 10) uEpochHalf =
      (rbmInit 2 2 ambZero, none) := by
  unfold train
  rfl

/-- Claim C7 as amended: the code performs no `InvalidDimension` validation
anywhere.  Construction with `numVisible = 0` and positive `numHidden`
proceeds and yields a `1 × (numHidden+1)` weight matrix; construction with
both dimensions zero does fail, but with the `ZeroDivisionError` of
`6. / (num_hidden + num_visible)`, not a dimension check; `train` with
non-positive `max_epochs` performs zero epochs and returns without error;
`daydream 0` does fail, but with the array library's index error (row 0 of
an empty array), not a dimension check. -/
theorem no_invalid_dimension_validation (hdim : ℕ) (amb : ℕ → ℕ → ℝ) (r : RBM)
    (data : Mat) (lr : ℝ) (u : ℕ → ℕ → ℕ → ℝ) (e : ℤ) (u0 : ℕ → ℝ)
    (uh uv : ℕ → ℕ → ℝ) (hpos : 0 < hdim) (he : e ≤ 0) :
    rbmInitChecked 0 hdim amb = Except.ok (rbmInit 0 hdim amb) ∧
    (rbmInit 0 hdim amb).weights.rows = 1 ∧
    (rbmInit 0 hdim amb).weights.cols = hdim + 1 ∧
    rbmInitChecked 0 0 amb = Except.error RBMError.zeroDivision ∧
    train r data e lr u = (r, none) ∧
    (daydream r 0 u0 uh uv).1 = Except.error RBMError.indexError := by
  refine ⟨?_, rfl, rfl, rfl, ?_, by simp [daydream]⟩
  · unfold rbmInitChecked
    rw [if_neg (by omega : ¬ (hdim + 0 = 0))]
  · unfold train
    rw [Int.toNat_of_nonpos he]
    rfl

/-- Witness for the amended C7, at `numHidden = 2`, `max_epochs = -3`. -/
theorem no_invalid_dimension_validation_witness :
    (0 < 2) ∧ ((-3 : ℤ) ≤ 0) ∧
    (rbmInitChecked 0 2 ambZero = Except.ok (rbmInit 0 2 ambZero) ∧
     (rbmInit 0 2 ambZero).weights.rows = 1 ∧
     (rbmInit 0 2 ambZero).weights.cols = 2 + 1 ∧
     rbmInitChecked 0 0 ambZero = Except.error RBMError.zeroDivision ∧
     train (rbmInit 2 2 ambZero) ⟨1, 2, fun _ _ => 1⟩ (-3) (1 / 10) uEpochHalf =
       (rbmInit 2 2 ambZero, none) ∧
     (daydream (rbmInit 2 2 ambZero) 0 (fun _ => 1 / 2) uHalf uHalf).1 =
       Except.error RBMError.indexError) :=
  ⟨by decide, by decide,
   no_invalid_dimension_validation 2 ambZero (rbmInit 2 2 ambZero) ⟨1, 2, fun _ _ => 1⟩
     (1 / 10) uEpochHalf (-3) (fun _ => 1 / 2) uHalf uHalf (by decide) (by decide)⟩

end
